import Mathlib

/-!
Verification of `bot_command_parser/parsers.py` (a combinator-based command
parser) against its specification.  Strings are modelled as `List Char`;
Python's raising of `ParseError` is modelled with `Except ParseError`;
`parse` returns the pair `(remainder, value)` in the source's order.
-/

/-- ASCII fragment of Python's `str.isspace` / regex `\s`, covering the
whitespace characters that can occur in the commands this engine parses:
space, tab, newline, carriage return, vertical tab, form feed. -/
def isPySpace (c : Char) : Bool :=
  c = ' ' || c = '\t' || c = '\n' || c = '\r' || c = '\x0b' || c = '\x0c'

/-- Python's `str.lstrip()`: drop leading whitespace. -/
def lstrip (s : List Char) : List Char :=
  s.dropWhile isPySpace

/-- ASCII decimal digit, as matched by the regex `\d` on these inputs. -/
def isPyDigit (c : Char) : Bool :=
  '0' ≤ c && c ≤ '9'

/-- The closed error variant type of `parsers.py`: `SimpleParseError`
(a terminal message) and `NestedParseError` (a path of positional keys,
here the 1-based `Nat` positions `Seq.parse` uses, plus a wrapped error). -/
inductive ParseError : Type where
  | simple (message : List Char) : ParseError
  | nested (path : List Nat) (error : ParseError) : ParseError
deriving DecidableEq, Repr

/-- Source `SimpleParseError.nest` builds `NestedParseError((key,), self)`;
`NestedParseError.nest` builds `NestedParseError((*self.path, key), self.error)`. -/
def ParseError.nest (e : ParseError) (key : Nat) : ParseError :=
  match e with
  | .simple m => .nested [key] (.simple m)
  | .nested p err => .nested (p ++ [key]) err

/-- The path component of an error: `()` for a simple error. -/
def ParseError.path : ParseError → List Nat
  | .simple _ => []
  | .nested p _ => p

/-- Number of `Nested` layers wrapped around the terminal message. -/
def ParseError.depth : ParseError → Nat
  | .simple _ => 0
  | .nested _ e => 1 + e.depth

/-- Python's `repr` of a non-negative int: its decimal digits. -/
def natRepr (n : Nat) : List Char :=
  Nat.toDigits 10 n

/-- Python's `"." .join(...)` over a list of rendered path keys. -/
def joinDots : List (List Char) → List Char
  | [] => []
  | [x] => x
  | x :: y :: xs => x ++ '.' :: joinDots (y :: xs)

/-- The single-quote character, written via its code point. -/
def squote : Char := Char.ofNat 39

/-- Escaping performed by Python's `repr` inside a string delimited by the
quote character q: the backslash and the delimiter are backslash-escaped,
tab, newline and carriage return become `\\t`, `\\n`, `\\r`, and the other
ASCII control characters (code below 32, or 127) become `\\xhh` with
lowercase hex digits; every other character is kept verbatim (non-ASCII
non-printable code points, which Python would also escape, are outside the
modelled alphabet, like the non-ASCII whitespace of `isPySpace`). -/
def pyEscChar (q : Char) (c : Char) : List Char :=
  if c = '\\' then ['\\', '\\']
  else if c = q then ['\\', q]
  else if c = '\t' then ['\\', 't']
  else if c = '\n' then ['\\', 'n']
  else if c = '\r' then ['\\', 'r']
  else if c.toNat < 32 || c.toNat = 127 then
    ['\\', 'x', Nat.digitChar (c.toNat / 16), Nat.digitChar (c.toNat % 16)]
  else [c]

/-- Python's `repr` of a string: delimited by single quotes, except that a
string containing a single quote but no double quote is delimited by double
quotes; the content is escaped for the chosen delimiter. -/
def pyRepr (s : List Char) : List Char :=
  let q := if s.contains squote && !s.contains '"' then '"' else squote
  q :: (s.map (pyEscChar q)).flatten ++ [q]

/-- Helper for `".".join(map(repr, self.path)) or "<root>"` from
`NestedParseError.describe`. -/
def dottedOrRoot (p : List Nat) : List Char :=
  let j := joinDots (p.map natRepr)
  if j = [] then "<root>".data else j

/-- Rendering `describe`: a simple error renders as its bare message; a nested error
renders as `"at {0!r}: {1!r}".format(path, self.error.describe())`. -/
def ParseError.describe : ParseError → List Char
  | .simple m => m
  | .nested p e => "at ".data ++ pyRepr (dottedOrRoot p) ++ ": ".data ++ pyRepr e.describe

/-- The parser abstraction: a pure function from input to either
`(remainder, value)` or a `ParseError`. -/
structure Parser (α : Type) : Type where
  parse : List Char → Except ParseError (List Char × α)

/-- Source `PureParser.parse`: `return source, self.value`. -/
def PureParser (value : α) : Parser α :=
  ⟨fun source => .ok (source, value)⟩

/-- Source `MappingParser.parse`: run the wrapped parser, apply the mapper to the
value, propagate errors unchanged. -/
def Parser.map (p : Parser α) (fn : α → β) : Parser β :=
  ⟨fun source =>
    match p.parse source with
    | .ok (rest, value) => .ok (rest, fn value)
    | .error e => .error e⟩

/-- Source `NestedParser.parse` (the result of `flatten`): run the outer parser to
obtain an inner parser, then run the inner parser on the remainder. -/
def Parser.flatten (p : Parser (Parser α)) : Parser α :=
  ⟨fun source =>
    match p.parse source with
    | .ok (rest, inner) => inner.parse rest
    | .error e => .error e⟩

/-- Source `FlatMappingParser.parse`: literally
`self.wrapped.map(self.mapper).flatten().parse(source)`. -/
def Parser.flatMap (p : Parser α) (fn : α → Parser β) : Parser β :=
  ⟨fun source => ((p.map fn).flatten).parse source⟩

/-- The regex match `re.match(r"([-+]?\d+)", source)` of `Int.parse`:
an optional sign followed by a maximal nonempty digit run, anchored at the
start; returns the matched token and the text after it. -/
def matchInt (s : List Char) : Option (List Char × List Char) :=
  match s with
  | [] => none
  | c :: cs =>
    if c = '-' || c = '+' then
      if cs.takeWhile isPyDigit = [] then none
      else some (c :: cs.takeWhile isPyDigit, cs.dropWhile isPyDigit)
    else
      if (c :: cs).takeWhile isPyDigit = [] then none
      else some ((c :: cs).takeWhile isPyDigit, (c :: cs).dropWhile isPyDigit)

/-- Decimal value of a digit run. -/
def digitsToNat (ds : List Char) : Nat :=
  ds.foldl (fun acc c => acc * 10 + (c.toNat - '0'.toNat)) 0

/-- Python's `int()` applied to the matched token `[-+]?digits`. -/
def pyIntOf (tok : List Char) : Int :=
  match tok with
  | '-' :: ds => -(digitsToNat ds : Int)
  | '+' :: ds => (digitsToNat ds : Int)
  | ds => (digitsToNat ds : Int)

/-- Source `Int.parse`: lstrip, match `[-+]?\d+` at the start, convert, and return
the lstripped text after the match together with the number. -/
def Int_parse (source : List Char) : Except ParseError (List Char × Int) :=
  let src := lstrip source
  match matchInt src with
  | none => .error (.simple "Expected an integer".data)
  | some (tok, after) => .ok (lstrip after, pyIntOf tok)

/-- Source `Word.parse`: lstrip, match `\S+` at the start, and return the lstripped
text after the match together with the matched word. -/
def Word_parse (source : List Char) : Except ParseError (List Char × List Char) :=
  let src := lstrip source
  let w := src.takeWhile (fun c => !isPySpace c)
  if w = [] then .error (.simple "Expected at least one non-space character".data)
  else .ok (lstrip (src.dropWhile (fun c => !isPySpace c)), w)

/-- Source `Rest.parse`: `return "", source`. -/
def Rest_parse (source : List Char) : Except ParseError (List Char × List Char) :=
  .ok ([], source)

/-- Source `Nothing.parse`: `return source, None`. -/
def Nothing_parse (source : List Char) : Except ParseError (List Char × Unit) :=
  .ok (source, ())

/-- Source `Lit.__post_init__`: under `__debug__`, constructing a literal whose
value contains whitespace raises `ValueError("Literal cannot contain spaces")`. -/
def Lit_post_init (debug : Bool) (value : List Char) : Except String (List Char) :=
  if debug && value.any isPySpace then
    .error "Literal cannot contain spaces"
  else
    .ok value

/-- Source `Lit.parse`: lstrip, match `\S+`, fail if there is no word or the word
differs from the literal value, else return the lstripped text after it. -/
def Lit_parse (value : List Char) (source : List Char) :
    Except ParseError (List Char × List Char) :=
  let src := lstrip source
  let w := src.takeWhile (fun c => !isPySpace c)
  if w = [] then
    .error (.simple ("Expected literal: ".data ++ value))
  else if w ≠ value then
    .error (.simple ("Expected literal: ".data ++ value ++ ", got: ".data ++ w))
  else
    .ok (lstrip (src.dropWhile (fun c => !isPySpace c)), w)

/-- The loop body of `Seq.parse`: `enumerate(self._converters, start=1)`,
each failure re-raised as `e.nest(pos)`, each value appended to `results`. -/
def Seq_go : List (Parser α) → Nat → List Char → List α →
    Except ParseError (List Char × List α)
  | [], _, rest, results => .ok (lstrip rest, results)
  | conv :: convs, pos, rest, results =>
    match conv.parse rest with
    | .ok (rest2, parsed) => Seq_go convs (pos + 1) rest2 (results ++ [parsed])
    | .error e => .error (e.nest pos)

/-- Source `Seq.parse`: lstrip once, then run the constituents in order from
position 1; on reaching the end, return `rest.lstrip(), tuple(results)`.
Python's heterogeneous `list[Any]` of results is modelled by a homogeneous
`List α` (instantiable at a sum type for mixed-type sequences). -/
def Seq_parse (converters : List (Parser α)) (source : List Char) :
    Except ParseError (List Char × List α) :=
  Seq_go converters 1 (lstrip source) []

/-- Packaged primitive: `integer = Int()`. -/
def integer : Parser Int := ⟨Int_parse⟩

/-- Packaged primitive: `word = Word()`. -/
def word : Parser (List Char) := ⟨Word_parse⟩

/-- Packaged primitive: `literal = Lit`. -/
def literal (value : List Char) : Parser (List Char) := ⟨Lit_parse value⟩

/-- Packaged primitive: `rest = Rest()`. -/
def rest : Parser (List Char) := ⟨Rest_parse⟩

/-- Packaged primitive: `nothing = Nothing()`. -/
def nothing : Parser Unit := ⟨Nothing_parse⟩

/-- Modelled from the spec: the test suite's `exact(v)` primitive, absent
from `parsers.py`, needed by the spec's 2-D point grammar `"(x, y)"`:
it consumes exactly the text `v` at the head of the whitespace-stripped
input (unlike `literal`, it does not require a whole whitespace-delimited
word), stripping leading whitespace from the remainder like the other
token primitives. -/
def exact (value : List Char) : Parser (List Char) :=
  ⟨fun source =>
    let src := lstrip source
    if value.isPrefixOf src then
      .ok (lstrip (src.drop value.length), value)
    else
      .error (.simple ("Expected exactly: ".data ++ value))⟩

/-- Modelled from the spec: `after(P, Q)` runs P then Q, keeping Q's value;
a convenience wrapper expressible purely in terms of flat-map/map. -/
def Parser.after (p : Parser α) (q : Parser β) : Parser β :=
  p.flatMap (fun _ => q)

/-- Modelled from the spec: `before(P, Q)` runs P then Q, keeping P's value;
a convenience wrapper expressible purely in terms of flat-map/map. -/
def Parser.before (p : Parser α) (q : Parser β) : Parser α :=
  p.flatMap (fun v => q.map (fun _ => v))

/-- Modelled from the spec: `apply` feeds one parser's function-typed value
into another parser's argument-typed value (ordinary applicative
application), expressible purely in terms of flat-map/map. -/
def Parser.apply (p : Parser (α → β)) (q : Parser α) : Parser β :=
  p.flatMap (fun f => q.map f)

/-- Modelled from the spec: the do-notation-style sequencing sugar is
semantically identical to repeated flat-map/bind with `pure` returning the
final value; Lean's `do` blocks over this instance play that role. -/
instance : Monad Parser where
  pure := PureParser
  bind := Parser.flatMap

/-- The 2-D point grammar built via nested dependent chaining of
`flat_map` (the "callback hell" formulation of the test suite). -/
def pointChained : Parser (Int × Int) :=
  (exact "(".data).flatMap (fun _ =>
    integer.flatMap (fun x =>
      (exact ",".data).flatMap (fun _ =>
        integer.flatMap (fun y =>
          (exact ")".data).flatMap (fun _ =>
            PureParser (x, y))))))

/-- Curried point constructor, as in the test suite's `make_point`. -/
def make_point (x : Int) : Int → Int × Int :=
  fun y => (x, y)

/-- The 2-D point grammar built via the applicative helper combinators
`after`/`map`/`apply`/`before`. -/
def pointApplicative : Parser (Int × Int) :=
  (((exact "(".data).after integer).map make_point).apply
    (((exact ",".data).after integer).before (exact ")".data))

/-- The 2-D point grammar built via the do-notation-style sugar: a linear
sequence of dependent steps, desugaring to repeated flat-map/bind. -/
def pointDo : Parser (Int × Int) := do
  let _ ← exact "(".data
  let x ← integer
  let _ ← exact ",".data
  let y ← integer
  let _ ← exact ")".data
  PureParser (x, y)

/-- Threads an input through a list of parsers, returning the final
remainder when every parser succeeds in order, and `none` otherwise.
Used to say "the first `k` constituents of a sequence succeed". -/
def threadOk : List (Parser α) → List Char → Option (List Char)
  | [], r => some r
  | conv :: convs, r =>
    match conv.parse r with
    | .ok (r2, _) => threadOk convs r2
    | .error _ => none

/-- Reference recursion transcribing the claim about `Seq.parse`: run each
constituent in append order against the current remainder; succeed with the
values in order and the final remainder exactly when every constituent
succeeds. -/
def seqChain : List (Parser α) → List Char → Option (List Char × List α)
  | [], r => some (r, [])
  | conv :: convs, r =>
    match conv.parse r with
    | .error _ => none
    | .ok (r2, v) =>
      match seqChain convs r2 with
      | none => none
      | some (rf, vs) => some (rf, v :: vs)

/-- The success component of a parse result. -/
def okPart : Except ParseError (List Char × β) → Option (List Char × β)
  | .ok x => some x
  | .error _ => none

/-- The remainder component of a successful parse result. -/
def remPart : Except ParseError (List Char × β) → Option (List Char)
  | .ok (r, _) => some r
  | .error _ => none

theorem lstrip_idem (s : List Char) : lstrip (lstrip s) = lstrip s := by
  unfold lstrip
  induction s with
  | nil => rfl
  | cons a l ih =>
    by_cases h : isPySpace a
    · simp [List.dropWhile_cons, h, ih]
    · simp [List.dropWhile_cons, h]

theorem nest_path (e : ParseError) (k : Nat) : (e.nest k).path = e.path ++ [k] := by
  cases e <;> rfl

theorem lstrip_cons_of_not_space (c : Char) (t : List Char) (h : isPySpace c = false) :
    lstrip (c :: t) = c :: t := by
  simp [lstrip, List.dropWhile_cons, h]

/-- C6: for every parser P, value-to-parser function f, and input string s,
`P.flat_map(f).parse(s)` produces exactly the same result as
`P.map(f).flatten().parse(s)`, and both run P and then run `f(value)`
against P's remainder, propagating P's error unchanged on failure. -/
theorem flat_map_is_map_then_flatten (α β : Type) (p : Parser α)
    (f : α → Parser β) (s : List Char) :
    (p.flatMap f).parse s = ((p.map f).flatten).parse s ∧
    (p.flatMap f).parse s = (match p.parse s with
      | .ok (r, v) => (f v).parse r
      | .error e => .error e) := by
  refine ⟨rfl, ?_⟩
  simp only [Parser.flatMap, Parser.flatten, Parser.map]
  rcases hp : p.parse s with e | rv
  · simp [hp]
  · rcases rv with ⟨r, v⟩
    simp [hp]

/-- C7: nesting a `Nested` error with key k keeps the wrapped error and
extends the existing path by k, adding no additional `Nested` layer. -/
theorem nested_nest_extends_path (p : List Nat) (e : ParseError) (k : Nat) :
    (ParseError.nested p e).nest k = ParseError.nested (p ++ [k]) e ∧
    ((ParseError.nested p e).nest k).depth = (ParseError.nested p e).depth :=
  ⟨rfl, rfl⟩

/-- C2 counterexample: `nest` does not prepend. Nesting key 3 onto the
nested error with path (2,) yields path (2, 3), not the prepended (3, 2). -/
theorem nest_prepend_counterexample :
    (ParseError.nested [2] (.simple "m".data)).nest 3
      = ParseError.nested [2, 3] (.simple "m".data) ∧
    ((ParseError.nested [2] (.simple "m".data)).nest 3).path
      ≠ 3 :: (ParseError.nested [2] (.simple "m".data)).path :=
  ⟨rfl, by decide⟩

/-- C2 amended: `e.nest(k)` adds k as one more trailing (appended) path
segment, so when nested sequencing combinators each nest their position
onto a propagating error the path lists the innermost sequencing position
first and the outermost position last. -/
theorem nest_appends_trailing_segment (e : ParseError) (k j : Nat) :
    (e.nest k).path = e.path ++ [k] ∧
    ((e.nest k).nest j).path = e.path ++ [k, j] := by
  refine ⟨nest_path e k, ?_⟩
  rw [nest_path, nest_path, List.append_assoc]
  rfl

/-- C3 counterexample: the whitespace policy is not universal. `Nothing.parse`
succeeds on " quack " returning the input untouched as the remainder, whose
leading whitespace is not stripped. -/
theorem whitespace_universality_counterexample :
    Nothing_parse " quack ".data = .ok (" quack ".data, ()) ∧
    lstrip " quack ".data ≠ " quack ".data :=
  ⟨rfl, by decide⟩

theorem Seq_go_rem_stripped {α : Type} :
    ∀ (convs : List (Parser α)) (pos : Nat) (r : List Char) (acc : List α)
      (r2 : List Char) (vs : List α),
      Seq_go convs pos r acc = .ok (r2, vs) → lstrip r2 = r2 := by
  intro convs
  induction convs with
  | nil =>
    intro pos r acc r2 vs h
    simp only [Seq_go, Except.ok.injEq, Prod.mk.injEq] at h
    rw [← h.1]
    exact lstrip_idem r
  | cons conv convs ih =>
    intro pos r acc r2 vs h
    simp only [Seq_go] at h
    rcases hc : conv.parse r with e | rv
    · rw [hc] at h; exact absurd h (by simp)
    · rcases rv with ⟨rm, v⟩
      rw [hc] at h
      exact ih (pos + 1) rm (acc ++ [v]) r2 vs h

/-- C3 amended: the token-matching primitives (integer, word, literal) and
the `Seq` combinator strip leading whitespace before matching (parsing the
lstripped input is the same as parsing the raw input) and return a
remainder with leading whitespace stripped; `nothing` and `pure` return
the input untouched, and `rest` consumes everything, returning the input
unstripped as its value; `map` returns exactly the wrapped parser's
remainder, and `flatten`/`flat_map` return exactly the inner or
continuation parser's result on the predecessor's remainder — none of the
three adds any stripping of its own. -/
theorem whitespace_policy_amended :
    (∀ s, Int_parse (lstrip s) = Int_parse s) ∧
    (∀ s r v, Int_parse s = .ok (r, v) → lstrip r = r) ∧
    (∀ s, Word_parse (lstrip s) = Word_parse s) ∧
    (∀ s r w, Word_parse s = .ok (r, w) → lstrip r = r) ∧
    (∀ v s, Lit_parse v (lstrip s) = Lit_parse v s) ∧
    (∀ v s r w, Lit_parse v s = .ok (r, w) → lstrip r = r) ∧
    (∀ (α : Type) (ps : List (Parser α)) (s : List Char),
      Seq_parse ps (lstrip s) = Seq_parse ps s) ∧
    (∀ (α : Type) (ps : List (Parser α)) (s r : List Char) (vs : List α),
      Seq_parse ps s = .ok (r, vs) → lstrip r = r) ∧
    (∀ s, Nothing_parse s = .ok (s, ())) ∧
    (∀ s, Rest_parse s = .ok ([], s)) ∧
    (∀ (α : Type) (x : α) (s : List Char), (PureParser x).parse s = .ok (s, x)) ∧
    (∀ (α β : Type) (p : Parser α) (f : α → β) (s : List Char),
      remPart ((p.map f).parse s) = remPart (p.parse s)) ∧
    (∀ (α : Type) (p : Parser (Parser α)) (s : List Char),
      (p.flatten).parse s = (match p.parse s with
        | .ok (r, inner) => inner.parse r
        | .error e => .error e)) ∧
    (∀ (α β : Type) (p : Parser α) (f : α → Parser β) (s : List Char),
      (p.flatMap f).parse s = (match p.parse s with
        | .ok (r, v) => (f v).parse r
        | .error e => .error e)) := by
  refine ⟨?_, ?_, ?_, ?_, ?_, ?_, ?_, ?_, ?_, ?_, ?_, ?_, ?_, ?_⟩
  · intro s; unfold Int_parse; rw [lstrip_idem]
  · intro s r v h
    unfold Int_parse at h
    dsimp only at h
    rcases hm : matchInt (lstrip s) with _ | tr
    · rw [hm] at h; exact absurd h (by simp)
    · rcases tr with ⟨tok, after⟩
      rw [hm] at h
      simp only [Except.ok.injEq, Prod.mk.injEq] at h
      rw [← h.1]
      exact lstrip_idem after
  · intro s; unfold Word_parse; rw [lstrip_idem]
  · intro s r w h
    unfold Word_parse at h
    dsimp only at h
    split at h
    · exact absurd h (by simp)
    · simp only [Except.ok.injEq, Prod.mk.injEq] at h
      rw [← h.1]
      exact lstrip_idem _
  · intro v s; unfold Lit_parse; rw [lstrip_idem]
  · intro v s r w h
    unfold Lit_parse at h
    dsimp only at h
    split at h
    · exact absurd h (by simp)
    · split at h
      · exact absurd h (by simp)
      · simp only [Except.ok.injEq, Prod.mk.injEq] at h
        rw [← h.1]
        exact lstrip_idem _
  · intro α ps s; unfold Seq_parse; rw [lstrip_idem]
  · intro α ps s r vs h
    exact Seq_go_rem_stripped ps 1 (lstrip s) [] r vs h
  · intro s; rfl
  · intro s; rfl
  · intro α x s; rfl
  · intro α β p f s
    rcases hp : p.parse s with e | rv
    · simp [Parser.map, remPart, hp]
    · rcases rv with ⟨r, v⟩
      simp [Parser.map, remPart, hp]
  · intro α p s
    rcases hp : p.parse s with e | rv
    · simp [Parser.flatten, hp]
    · rcases rv with ⟨r, inner⟩
      simp [Parser.flatten, hp]
  · intro α β p f s
    simp only [Parser.flatMap, Parser.flatten, Parser.map]
    rcases hp : p.parse s with e | rv
    · simp [hp]
    · rcases rv with ⟨r, v⟩
      simp [hp]

theorem whitespace_policy_amended_witness :
    lstrip "foo ".data = "foo ".data ∧
    Nothing_parse " quack ".data = .ok (" quack ".data, ()) ∧
    Rest_parse " foo bar".data = .ok ([], " foo bar".data) ∧
    remPart ((integer.map (fun n => n + 1)).parse "42 foo".data)
      = remPart (integer.parse "42 foo".data) :=
  ⟨whitespace_policy_amended.2.1 " 42 foo ".data "foo ".data 42 rfl,
   whitespace_policy_amended.2.2.2.2.2.2.2.2.1 " quack ".data,
   whitespace_policy_amended.2.2.2.2.2.2.2.2.2.1 " foo bar".data,
   whitespace_policy_amended.2.2.2.2.2.2.2.2.2.2.2.1 Int Int integer
     (fun n => n + 1) "42 foo".data⟩

/-- C9: under the debug flag, constructing a literal whose value contains
at least one whitespace character fails eagerly at construction time with
`ValueError("Literal cannot contain spaces")`; construction of a
whitespace-free literal succeeds under either flag, and with the debug
flag off the check is skipped entirely (a debug-only assertion). -/
theorem lit_whitespace_guard :
    (∀ v, v.any isPySpace = true →
      Lit_post_init true v = .error "Literal cannot contain spaces") ∧
    (∀ v d, v.any isPySpace = false → Lit_post_init d v = .ok v) ∧
    (∀ v, Lit_post_init false v = .ok v) := by
  refine ⟨?_, ?_, ?_⟩
  · intro v h; simp [Lit_post_init, h]
  · intro v d h; simp [Lit_post_init, h]
  · intro v; simp [Lit_post_init]

theorem lit_whitespace_guard_witness :
    Lit_post_init true "a b".data = .error "Literal cannot contain spaces" ∧
    Lit_post_init true "ab".data = .ok "ab".data ∧
    Lit_post_init false "a b".data = .ok "a b".data :=
  ⟨lit_whitespace_guard.1 "a b".data (by decide),
   lit_whitespace_guard.2.1 "ab".data true (by decide),
   lit_whitespace_guard.2.2 "a b".data⟩

/-- C5: the 2-D point grammar built via (a) nested dependent chaining of
flat-map, (b) the applicative helpers `after`/`map`/`apply`/`before`, and
(c) do-notation-style sugar all parse "(3, -51)" to the identical result
`("", (3, -51))`. -/
theorem point_three_ways :
    pointChained.parse "(3, -51)".data = .ok ([], (3, -51)) ∧
    pointApplicative.parse "(3, -51)".data = .ok ([], (3, -51)) ∧
    pointDo.parse "(3, -51)".data = .ok ([], (3, -51)) :=
  ⟨rfl, rfl, rfl⟩

theorem Seq_go_first_err {α : Type} (q : Parser α) (post : List (Parser α))
    (e : ParseError) :
    ∀ (pre : List (Parser α)) (pos : Nat) (r r2 : List Char) (acc : List α),
      threadOk pre r = some r2 → q.parse r2 = .error e →
      Seq_go (pre ++ q :: post) pos r acc = .error (e.nest (pos + pre.length)) := by
  intro pre
  induction pre with
  | nil =>
    intro pos r r2 acc ht hq
    simp only [threadOk, Option.some.injEq] at ht
    subst ht
    simp [Seq_go, hq]
  | cons c pre ih =>
    intro pos r r2 acc ht hq
    simp only [threadOk] at ht
    rcases hc : c.parse r with e0 | rv
    · rw [hc] at ht; exact absurd ht (by simp)
    · rcases rv with ⟨rm, v⟩
      rw [hc] at ht
      have step : Seq_go ((c :: pre) ++ q :: post) pos r acc
          = Seq_go (pre ++ q :: post) (pos + 1) rm (acc ++ [v]) := by
        simp [Seq_go, hc]
      rw [step, ih (pos + 1) rm r2 (acc ++ [v]) ht hq]
      have harith : pos + 1 + pre.length = pos + (c :: pre).length := by
        simp [List.length_cons]; omega
      rw [harith]

/-- C1: when the constituents before position p all succeed in order
(threading the remainder from the once-lstripped input) and the constituent
at 1-based position p fails with error e, the whole sequence fails with
exactly `e.nest(p)` — the failing constituent's error extended by the single
path segment p; the earlier successful constituents contribute no segments. -/
theorem seq_first_failure_nests_position {α : Type}
    (pre post : List (Parser α)) (q : Parser α) (s r : List Char)
    (e : ParseError)
    (ht : threadOk pre (lstrip s) = some r)
    (hq : q.parse r = .error e) :
    Seq_parse (pre ++ q :: post) s = .error (e.nest (pre.length + 1)) ∧
    (e.nest (pre.length + 1)).path = e.path ++ [pre.length + 1] := by
  refine ⟨?_, nest_path e (pre.length + 1)⟩
  unfold Seq_parse
  rw [Seq_go_first_err q post e pre 1 (lstrip s) r [] ht hq]
  have : 1 + pre.length = pre.length + 1 := by omega
  rw [this]

theorem seq_first_failure_nests_position_witness :
    Seq_parse [integer, integer] "42 number".data
      = .error (ParseError.nested [2] (.simple "Expected an integer".data)) ∧
    (ParseError.nested [2] (.simple "Expected an integer".data)).path = [2] :=
  seq_first_failure_nests_position [integer] [] integer "42 number".data
    "number".data (.simple "Expected an integer".data) rfl rfl

theorem okPart_Seq_go {α : Type} :
    ∀ (convs : List (Parser α)) (pos : Nat) (r : List Char) (acc : List α),
      okPart (Seq_go convs pos r acc)
        = (seqChain convs r).map (fun x => (lstrip x.1, acc ++ x.2)) := by
  intro convs
  induction convs with
  | nil =>
    intro pos r acc
    simp [Seq_go, seqChain, okPart]
  | cons c convs ih =>
    intro pos r acc
    rcases hc : c.parse r with e | rv
    · simp [Seq_go, seqChain, hc, okPart]
    · rcases rv with ⟨rm, v⟩
      have step : okPart (Seq_go (c :: convs) pos r acc)
          = okPart (Seq_go convs (pos + 1) rm (acc ++ [v])) := by
        simp [Seq_go, hc]
      rw [step, ih]
      rcases hs : seqChain convs rm with _ | rfvs
      · simp [seqChain, hc, hs]
      · rcases rfvs with ⟨rf, vs⟩
        simp [seqChain, hc, hs]

/-- C4: `Seq.parse` strips leading whitespace once and then behaves as the
reference chain that runs each constituent in append order against the
current remainder: it succeeds exactly when every constituent succeeds,
yielding the values in append order, and its returned remainder is the
chain's final remainder (with its leading whitespace stripped, as the code
lstrips the remainder it returns); on any constituent's failure the whole
sequence fails. -/
theorem seq_parse_characterization {α : Type}
    (converters : List (Parser α)) (source : List Char) :
    okPart (Seq_parse converters source)
      = (seqChain converters (lstrip source)).map (fun x => (lstrip x.1, x.2)) := by
  unfold Seq_parse
  rw [okPart_Seq_go]
  simp

theorem toDigitsCore_length_le (b : Nat) :
    ∀ (fuel n : Nat) (ds : List Char),
      ds.length ≤ (Nat.toDigitsCore b fuel n ds).length := by
  intro fuel
  induction fuel with
  | zero => intro n ds; simp [Nat.toDigitsCore]
  | succ fuel ih =>
    intro n ds
    simp only [Nat.toDigitsCore]
    split
    · simp
    · exact le_trans (by simp) (ih _ _)

theorem natRepr_ne_nil (n : Nat) : natRepr n ≠ [] := by
  unfold natRepr Nat.toDigits
  simp only [Nat.toDigitsCore]
  split
  · simp
  · intro h
    have hle := toDigitsCore_length_le 10 n (n / 10) [Nat.digitChar (n % 10)]
    rw [h] at hle
    simp at hle

theorem joinDots_ne_nil :
    ∀ (xs : List (List Char)), (∀ x ∈ xs, x ≠ []) → xs ≠ [] → joinDots xs ≠ [] := by
  intro xs hmem hne
  match xs with
  | [] => exact absurd rfl hne
  | [x] => exact hmem x (by simp)
  | x :: y :: rest0 =>
    show x ++ '.' :: joinDots (y :: rest0) ≠ []
    simp

/-- C8 counterexample: not every `ParseError` renders in the
`at <path>: <message>` shape — a `SimpleParseError` describes as its bare
message, which does not begin with "at ". -/
theorem describe_shape_counterexample :
    (ParseError.simple "oops".data).describe = "oops".data ∧
    "oops".data.take 3 ≠ "at ".data :=
  ⟨rfl, by decide⟩

/-- C8 amended: `SimpleParseError.describe` returns the bare message, while
`NestedParseError.describe` returns `at <P>: <M>` where P is the
single-quoted (Python `repr`) dotted path — the path segments joined with
"." for a nonempty path and `<root>` for an empty path — and M is the
single-quoted description of the wrapped error (the innermost message when
the wrapped error is simple). -/
theorem describe_shape_amended :
    (∀ m, (ParseError.simple m).describe = m) ∧
    (∀ e, (ParseError.nested [] e).describe
        = "at ".data ++ pyRepr "<root>".data ++ ": ".data ++ pyRepr e.describe) ∧
    (∀ p e, p ≠ [] → (ParseError.nested p e).describe
        = "at ".data ++ pyRepr (joinDots (p.map natRepr)) ++ ": ".data
            ++ pyRepr e.describe) := by
  refine ⟨fun m => rfl, fun e => rfl, ?_⟩
  intro p e hp
  show "at ".data ++ pyRepr (dottedOrRoot p) ++ ": ".data ++ pyRepr e.describe = _
  have hne : joinDots (p.map natRepr) ≠ [] := by
    apply joinDots_ne_nil
    · intro x hx
      rcases List.mem_map.mp hx with ⟨k, _, rfl⟩
      exact natRepr_ne_nil k
    · simp [hp]
  unfold dottedOrRoot
  simp [hne]

theorem describe_shape_amended_witness :
    (ParseError.nested [2] (.simple "oops".data)).describe
      = "at \x272\x27: \x27oops\x27".data ∧
    (ParseError.nested [1] (.simple "Expected literal: foo, got: don\x27t".data)).describe
      = "at \x271\x27: \x22Expected literal: foo, got: don\x27t\x22".data :=
  ⟨describe_shape_amended.2.2 [2] (.simple "oops".data) (by decide),
   describe_shape_amended.2.2 [1]
     (.simple "Expected literal: foo, got: don\x27t".data) (by decide)⟩

theorem takeWhile_all_then_stop (p : Char → Bool) (b : Char) (l2 : List Char)
    (hb : p b = false) :
    ∀ (l1 : List Char), (∀ a ∈ l1, p a = true) →
      (l1 ++ b :: l2).takeWhile p = l1 ∧ (l1 ++ b :: l2).dropWhile p = b :: l2 := by
  intro l1
  induction l1 with
  | nil =>
    intro _
    constructor
    · simp [List.takeWhile_cons, hb]
    · simp [List.dropWhile_cons, hb]
  | cons a l1 ih =>
    intro hall
    have ha : p a = true := hall a (by simp)
    have hrest : ∀ x ∈ l1, p x = true := fun x hx => hall x (by simp [hx])
    rcases ih hrest with ⟨h1, h2⟩
    constructor
    · simp [List.takeWhile_cons, ha, h1]
    · simp [List.dropWhile_cons, ha, h2]

theorem digit_ne_sign (c : Char) (h : isPyDigit c = true) :
    (c = '-' || c = '+') = false := by
  rcases hm : (c = '-' || c = '+') with _ | _
  · rfl
  · exfalso
    rcases Bool.or_eq_true_iff.mp hm with h1 | h1
    · rw [decide_eq_true_iff.mp h1] at h
      exact absurd h (by decide)
    · rw [decide_eq_true_iff.mp h1] at h
      exact absurd h (by decide)

theorem matchInt_digit_run (d : Char) (ds2 t : List Char) (c : Char)
    (hall : ∀ a ∈ d :: ds2, isPyDigit a = true) (hc1 : isPyDigit c = false) :
    matchInt (d :: (ds2 ++ c :: t)) = some (d :: ds2, c :: t) := by
  have key := takeWhile_all_then_stop isPyDigit c t hc1 (d :: ds2) hall
  simp only [List.cons_append] at key
  have hd := digit_ne_sign d (hall d (by simp))
  simp [matchInt, hd, key.1, key.2]

theorem matchInt_signed_digit_run (sgn d : Char) (ds2 t : List Char) (c : Char)
    (hsgn : (sgn = '-' || sgn = '+') = true)
    (hall : ∀ a ∈ d :: ds2, isPyDigit a = true) (hc1 : isPyDigit c = false) :
    matchInt (sgn :: d :: (ds2 ++ c :: t)) = some (sgn :: d :: ds2, c :: t) := by
  have key := takeWhile_all_then_stop isPyDigit c t hc1 (d :: ds2) hall
  simp only [List.cons_append] at key
  simp [matchInt, hsgn, key.1, key.2]

/-- C10: the integer primitive does not require a token boundary. Whenever
the lstripped input is an optional sign, a nonempty digit run, and then a
character that is neither a digit nor whitespace, `Int.parse` succeeds with
the value of the signed digit run and the remainder starting exactly at the
character after the digits. -/
theorem integer_no_token_boundary (s sign ds t : List Char) (c : Char)
    (hs : lstrip s = sign ++ ds ++ c :: t)
    (hsign : sign = [] ∨ sign = ['-'] ∨ sign = ['+'])
    (hds : ds ≠ []) (hall : ∀ a ∈ ds, isPyDigit a = true)
    (hc1 : isPyDigit c = false) (hc2 : isPySpace c = false) :
    Int_parse s = .ok (c :: t, pyIntOf (sign ++ ds)) := by
  obtain ⟨d, ds2, rfl⟩ := List.exists_cons_of_ne_nil hds
  unfold Int_parse
  dsimp only
  rw [hs]
  rcases hsign with h | h | h <;> subst h <;>
    simp only [List.cons_append, List.nil_append]
  · rw [matchInt_digit_run d ds2 t c hall hc1]
    dsimp only
    rw [lstrip_cons_of_not_space c t hc2]
  · rw [matchInt_signed_digit_run '-' d ds2 t c (by decide) hall hc1]
    dsimp only
    rw [lstrip_cons_of_not_space c t hc2]
  · rw [matchInt_signed_digit_run '+' d ds2 t c (by decide) hall hc1]
    dsimp only
    rw [lstrip_cons_of_not_space c t hc2]

theorem integer_no_token_boundary_witness :
    Int_parse "12abc".data = .ok ("abc".data, 12) ∧
    Int_parse "12.5".data = .ok (".5".data, 12) :=
  ⟨integer_no_token_boundary "12abc".data [] "12".data "bc".data 'a'
      rfl (Or.inl rfl) (by decide) (by decide) rfl rfl,
   integer_no_token_boundary "12.5".data [] "12".data "5".data '.'
      rfl (Or.inl rfl) (by decide) (by decide) rfl rfl⟩
